import Mathlib

/-!
Verification of the schwift execution core (`src/state/mod.rs`, `src/error.rs`).

The embedding below translates `State` and its methods from
`src/state/mod.rs`.  The collaborator modules that the repository does not
ship under `src/` (`expression.rs`, `value.rs`, `statement.rs`,
`vec_map.rs`) are modelled from the specification, as marked on each
definition.  Machine integers are modelled as `Int`/`Nat` with the
`as usize` cast made explicit; the ambient I/O of the Rust program is
modelled by an explicit `World` record threaded through execution, and the
dynamic-library / native-function boundary by an explicit `FFI` record.

Execution is fuel-indexed: every mutually recursive execution function
peels one unit of fuel, so `fuel` bounds the recursion depth and the
functions are structurally recursive (hence computable and
kernel-reducible).  `ExecResult.timeout` marks fuel exhaustion and is never
identified with any behaviour of the program.
-/

/-- Modelled from the spec (`value.rs` is not under `src/`): the type tags
used by `value::Type` for error reporting (`get_type`). -/
inductive Ty where
  | Int
  | Bool
  | Str
  | List
  | Function
  | NativeFunction
deriving DecidableEq

mutual

/-- Modelled from the spec (`value.rs` is not under `src/`): the runtime
value domain of §3 — integer, boolean, string, list, interpreter function
(parameter names + body), native function.  A native function is
represented by an opaque handle interpreted by an `FFI` record. -/
inductive Value where
  | Int (i : Int)
  | Bool (b : Bool)
  | Str (s : String)
  | List (l : List Value)
  | Function (params : List String) (body : List Statement)
  | NativeFunction (handle : Nat)

/-- Modelled from the spec (`expression.rs` is not under `src/`): the
expression forms §4.2 specifies at this boundary — literal value, variable
lookup, and container indexing `name[expr]` (whose semantics is
`State::list_index` in `src/state/mod.rs`). -/
inductive Expression where
  | Value (v : Value)
  | Variable (name : String)
  | ListIndex (name : String) (index : Expression)

/-- The statement alternatives of `StatementKind`, exactly the ones matched
by `State::execute` in `src/state/mod.rs`. -/
inductive StatementKind where
  | Input (name : String)
  | ListAssign (name : String) (indexExp : Expression) (assignExp : Expression)
  | ListAppend (name : String) (appendExp : Expression)
  | ListDelete (name : String) (indexExp : Expression)
  | ListNew (name : String)
  | If (cond : Expression) (ifBody : List Statement) (elseBody : Option (List Statement))
  | While (cond : Expression) (body : List Statement)
  | Assignment (name : String) (value : Expression)
  | Delete (name : String)
  | Print (exp : Expression)
  | PrintNoNl (exp : Expression)
  | Catch (tryBlock : List Statement) (catchBlock : List Statement)
  | Function (name : String) (params : List String) (body : List Statement)
  | Return (exp : Expression)
  | FunctionCall (name : String) (args : List Expression)
  | DylibLoad (libPath : String) (functions : List Statement)

/-- A `Statement` pairs a `StatementKind` with source-location metadata
(modelled as an opaque numeric id, enough to distinguish statements). -/
inductive Statement where
  | mk (srcId : Nat) (kind : StatementKind)

end

/-- The kind of a statement (field accessor of `Statement`). -/
def Statement.kind : Statement → StatementKind
  | .mk _ k => k

/-- The source-location id of a statement (field accessor of `Statement`). -/
def Statement.srcId : Statement → Nat
  | .mk i _ => i

/-- The error taxonomy of §7, as constructed by `src/state/mod.rs`
(the copy of `error.rs` under `src/` is an older revision lacking the
`InvalidArguments`, `NoReturn` and `NonFunctionCallInDylib` variants that
`state/mod.rs` uses; the variants and payloads here are the ones
`state/mod.rs` actually builds).  The `io::Error` payload of `IOError` is
dropped: `error.rs` compares any two `IOError`s equal. -/
inductive ErrorKind where
  | UnknownVariable (name : String)
  | IndexUnindexable (actual : Ty)
  | IndexOutOfBounds (len : Nat) (index : Nat)
  | UnexpectedType (expected : Ty) (actual : Ty)
  | InvalidArguments (name : String) (given : Nat) (expected : Nat)
  | NoReturn (name : String)
  | IOError
  | NonFunctionCallInDylib (s : Statement)
  | SyntaxError

/-- `Error` pairs an `ErrorKind` with the `Statement` it is attributed to
(`place`), as in `error.rs` / `Error::new(kind, place)`. -/
structure Error where
  kind : ErrorKind
  place : Statement

/-- `value::Type` tag of a runtime value (`Value::get_type`, modelled from
the spec since `value.rs` is not under `src/`). -/
def Value.getType : Value → Ty
  | .Int _ => .Int
  | .Bool _ => .Bool
  | .Str _ => .Str
  | .List _ => .List
  | .Function _ _ => .Function
  | .NativeFunction _ => .NativeFunction

/-- Modelled from the spec (`vec_map.rs` is not under `src/`):
lookup in an insertion-order-preserving map with unique keys. -/
def mapGet (m : List (String × Value)) (k : String) : Option Value :=
  match m with
  | [] => none
  | (k', v) :: rest => if k' = k then some v else mapGet rest k

/-- Modelled from the spec (`vec_map.rs` is not under `src/`): upsert —
replace in place if the key is present (keys unique, last write wins),
otherwise append (insertion order preserved). -/
def mapInsert (m : List (String × Value)) (k : String) (v : Value) :
    List (String × Value) :=
  match m with
  | [] => [(k, v)]
  | (k', v') :: rest =>
      if k' = k then (k, v) :: rest else (k', v') :: mapInsert rest k v

/-- Modelled from the spec (`vec_map.rs` is not under `src/`): removal;
`none` when the key is absent. -/
def mapRemove (m : List (String × Value)) (k : String) :
    Option (List (String × Value)) :=
  match m with
  | [] => none
  | (k', v') :: rest =>
      if k' = k then some rest
      else match mapRemove rest k with
           | some rest' => some ((k', v') :: rest')
           | none => none

/-- The interpreter state `State` of `src/state/mod.rs`: symbol map,
pending-return slot, and owned native libraries (handles modelled by the
loaded paths). -/
structure State where
  symbols : List (String × Value)
  last_return : Option Value
  libraries : List String

/-- `State::default()`: empty symbols, no pending return, no libraries. -/
def State.default : State := ⟨[], none, []⟩

/-- The ambient I/O of the process, made explicit: a stream of pending
stdin reads (`none` models a failing `read_line`; an exhausted list models
end of input, where `read_line` succeeds with an empty buffer) and the
produced stdout events (value printed, whether a newline followed). -/
structure World where
  stdin : List (Option String)
  stdout : List (Value × Bool)

/-- The foreign-function boundary of §4.5, made explicit: how a native
handle is called, and what loading a dynamic library yields (`none` models
a load failure; a resolver mapping symbol names to handles otherwise, with
`none` per name modelling symbol-resolution failure). -/
structure FFI where
  nativeCall : Nat → List Value → Except ErrorKind Value
  loadLib : String → Option (String → Option Nat)

/-- `State::get`: lookup a name, `UnknownVariable` when absent. -/
def State.get (st : State) (name : String) : Except ErrorKind Value :=
  match mapGet st.symbols name with
  | some val => .ok val
  | none => .error (.UnknownVariable name)

/-- The `i as usize` cast of `src/state/mod.rs` on a 64-bit platform:
two's-complement conversion of the evaluated integer to an unsigned
machine word. -/
def intToUsize (i : Int) : Nat := (i % (2 ^ 64 : Int)).toNat

/-- The lookup-and-bounds-check part of `State::list_index`, after the
index expression has been evaluated: match the binding; for a `List`,
require an `Int` index and bounds-check; for a `Str`, collect the Unicode
scalar characters, require an `Int` index, bounds-check, and build a fresh
one-character string; anything else is `IndexUnindexable`; an unbound name
is `UnknownVariable`. -/
def index_lookup (st : State) (list_name : String)
    (inner_expression_value : Value) : Except ErrorKind Value :=
  match mapGet st.symbols list_name with
  | some symbol =>
      match symbol with
      | .List l =>
          match inner_expression_value with
          | .Int i =>
              let index := intToUsize i
              if h : index < l.length then .ok (l.get ⟨index, h⟩)
              else .error (.IndexOutOfBounds l.length index)
          | _ => .error (.UnexpectedType .Int inner_expression_value.getType)
      | .Str s =>
          match inner_expression_value with
          | .Int i =>
              let index := intToUsize i
              let chars := s.toList
              if h : index < chars.length then
                .ok (.Str (chars.get ⟨index, h⟩).toString)
              else .error (.IndexOutOfBounds chars.length index)
          | _ => .error (.UnexpectedType .Int inner_expression_value.getType)
      | _ => .error (.IndexUnindexable symbol.getType)
  | none => .error (.UnknownVariable list_name)

/-- Modelled from the spec (`expression.rs` is not under `src/`):
`Expression::evaluate` against a shared `State` — a literal yields its
value, a variable is looked up via `State::get`, and indexing evaluates the
index sub-expression first and then performs `State::list_index`'s
lookup. -/
def evaluate : Expression → State → Except ErrorKind Value
  | .Value v, _ => .ok v
  | .Variable name, st => st.get name
  | .ListIndex name index, st =>
      match evaluate index st with
      | .error k => .error k
      | .ok v => index_lookup st name v

/-- `State::list_index`: evaluate the index expression, then look up and
bounds-check (identical to the `ListIndex` branch of `evaluate`). -/
def list_index (st : State) (list_name : String) (exp : Expression) :
    Except ErrorKind Value :=
  match evaluate exp st with
  | .error k => .error k
  | .ok v => index_lookup st list_name v

/-- Modelled from the spec (`expression.rs` is not under `src/`):
`Expression::try_int` — evaluate, require an integer,
`UnexpectedType(Int, actual)` otherwise. -/
def try_int (exp : Expression) (st : State) : Except ErrorKind Int :=
  match evaluate exp st with
  | .error k => .error k
  | .ok (.Int i) => .ok i
  | .ok v => .error (.UnexpectedType .Int v.getType)

/-- Modelled from the spec (`expression.rs` is not under `src/`):
`Expression::try_bool` — evaluate, require a boolean,
`UnexpectedType(Bool, actual)` otherwise. -/
def try_bool (exp : Expression) (st : State) : Except ErrorKind Bool :=
  match evaluate exp st with
  | .error k => .error k
  | .ok (.Bool b) => .ok b
  | .ok v => .error (.UnexpectedType .Bool v.getType)

/-- `State::assign`: evaluate and upsert. -/
def assign (str : String) (exp : Expression) (st : State) :
    Except ErrorKind State :=
  match evaluate exp st with
  | .error k => .error k
  | .ok v => .ok { st with symbols := mapInsert st.symbols str v }

/-- `State::delete`: remove the binding, `UnknownVariable` when absent. -/
def delete (name : String) (st : State) : Except ErrorKind State :=
  match mapRemove st.symbols name with
  | some symbols' => .ok { st with symbols := symbols' }
  | none => .error (.UnknownVariable name)

/-- `State::get_list_element`: resolve the index via `try_int`, cast to
`usize`, require the binding to be a `List`, bounds-check and return the
element (the `&mut` return of the source is modelled by read access; the
mutating caller `list_assign` re-locates the element to write it). -/
def get_list_element (name : String) (index_exp : Expression) (st : State) :
    Except ErrorKind Value :=
  match try_int index_exp st with
  | .error k => .error k
  | .ok i =>
      let index := intToUsize i
      match mapGet st.symbols name with
      | some (.List list) =>
          if h : index < list.length then .ok (list.get ⟨index, h⟩)
          else .error (.IndexOutOfBounds list.length index)
      | some val => .error (.IndexUnindexable val.getType)
      | none => .error (.UnknownVariable name)

/-- `State::list_append`: evaluate the appended expression, require the
binding to be a `List` (`get_list` = `get_mut` + list check), and push. -/
def list_append (list_name : String) (append_exp : Expression) (st : State) :
    Except ErrorKind State :=
  match evaluate append_exp st with
  | .error k => .error k
  | .ok to_append =>
      match mapGet st.symbols list_name with
      | some (.List l) =>
          .ok { st with
                symbols := mapInsert st.symbols list_name (.List (l ++ [to_append])) }
      | some val => .error (.IndexUnindexable val.getType)
      | none => .error (.UnknownVariable list_name)

/-- `State::list_assign`: evaluate the assigned expression, resolve the
list element as `get_list_element` does, and overwrite it in place. -/
def list_assign (list_name : String) (index_exp : Expression)
    (assign_exp : Expression) (st : State) : Except ErrorKind State :=
  match evaluate assign_exp st with
  | .error k => .error k
  | .ok to_assign =>
      match try_int index_exp st with
      | .error k => .error k
      | .ok i =>
          let index := intToUsize i
          match mapGet st.symbols list_name with
          | some (.List list) =>
              if index < list.length then
                .ok { st with
                      symbols := mapInsert st.symbols list_name
                        (.List (list.set index to_assign)) }
              else .error (.IndexOutOfBounds list.length index)
          | some val => .error (.IndexUnindexable val.getType)
          | none => .error (.UnknownVariable list_name)

/-- `State::list_delete`: evaluate the index, require an integer, require
the binding to be a `List`, bounds-check, and remove the element
(order-preserving shift). -/
def list_delete (list_name : String) (index_exp : Expression) (st : State) :
    Except ErrorKind State :=
  match evaluate index_exp st with
  | .error k => .error k
  | .ok (.Int i) =>
      let index := intToUsize i
      match mapGet st.symbols list_name with
      | some (.List list) =>
          if index < list.length then
            .ok { st with
                  symbols := mapInsert st.symbols list_name
                    (.List (list.eraseIdx index)) }
          else .error (.IndexOutOfBounds list.length index)
      | some val => .error (.IndexUnindexable val.getType)
      | none => .error (.UnknownVariable list_name)
  | .ok v => .error (.UnexpectedType .Int v.getType)

/-- `State::print`: evaluate and emit the value with a newline. -/
def print (exp : Expression) (st : State) (w : World) :
    Except ErrorKind (State × World) :=
  match evaluate exp st with
  | .error k => .error k
  | .ok x => .ok (st, { w with stdout := w.stdout ++ [(x, true)] })

/-- `State::print_no_nl`: evaluate and emit the value without a newline. -/
def print_no_nl (exp : Expression) (st : State) (w : World) :
    Except ErrorKind (State × World) :=
  match evaluate exp st with
  | .error k => .error k
  | .ok x => .ok (st, { w with stdout := w.stdout ++ [(x, false)] })

/-- Modelled from the spec (the `char::is_whitespace` collaborator): the
ASCII fragment of Unicode `White_Space`, which is all the claims exercise. -/
def isRustWhitespace (c : Char) : Bool :=
  c == ' ' || c == '\t' || c == '\n' || c == '\x0d' || c == '\x0b' || c == '\x0c'

/-- Modelled from the spec (the `str::trim` collaborator): remove leading
and trailing whitespace. -/
def rustTrim (s : String) : String :=
  String.mk ((((s.toList.dropWhile isRustWhitespace).reverse).dropWhile
    isRustWhitespace).reverse)

/-- `State::input`: read one line from standard input (a `none` event
models a failing `read_line`, an exhausted stream a successful read of an
empty buffer at end of input), return `IOError` on failure, otherwise trim
the buffer and bind it as a string.  A failing read leaves the symbols
untouched but has consumed its stdin event. -/
def input (name : String) (st : State) (w : World) :
    Except ErrorKind Unit × State × World :=
  match w.stdin with
  | [] =>
      (.ok (), { st with symbols := mapInsert st.symbols name (.Str (rustTrim "")) }, w)
  | some line :: rest =>
      (.ok (), { st with symbols := mapInsert st.symbols name (.Str (rustTrim line)) },
       { w with stdin := rest })
  | none :: rest => (.error .IOError, st, { w with stdin := rest })

/-- The symbol-binding loop of `State::dylib_load`: each statement of the
block must be a `FunctionCall` naming a symbol to resolve; each resolved
symbol is inserted as a native-function value as the loop goes, so inserts
made before a failure persist. -/
def dylib_load_go (resolve : String → Option Nat) (functions : List Statement)
    (st : State) : Except ErrorKind Unit × State :=
  match functions with
  | [] => (.ok (), st)
  | statement :: rest =>
      match statement.kind with
      | .FunctionCall name _ =>
          match resolve name with
          | some handle =>
              dylib_load_go resolve rest
                { st with symbols := mapInsert st.symbols name (.NativeFunction handle) }
          | none => (.error .IOError, st)
      | _ => (.error (.NonFunctionCallInDylib statement), st)

/-- `State::dylib_load`: load the library at the path (failure surfaces as
the `IOError` class), bind each named exported symbol, and retain the
loaded library handle in the state. -/
def dylib_load (ffi : FFI) (lib_path : String) (functions : List Statement)
    (st : State) (w : World) : Except ErrorKind Unit × State × World :=
  match ffi.loadLib lib_path with
  | none => (.error .IOError, st, w)
  | some resolve =>
      match dylib_load_go resolve functions st with
      | (.ok _, st') =>
          (.ok (), { st' with libraries := st'.libraries ++ [lib_path] }, w)
      | (.error k, st') => (.error k, st', w)

/-- The argument-evaluation loop at the head of `State::call_function`:
evaluate every argument expression left-to-right in the caller's state,
stopping at the first error. -/
def evalArgs : List Expression → State → Except ErrorKind (List Value)
  | [], _ => .ok []
  | x :: rest, st =>
      match evaluate x st with
      | .error k => .error k
      | .ok v =>
          match evalArgs rest st with
          | .error k => .error k
          | .ok vs => .ok (v :: vs)

/-- The child-scope construction of `State::call_function`: a fresh default
state with each parameter name bound to its evaluated argument
(`params.iter().zip(call_args)`). -/
def bindParams (params : List String) (call_args : List Value) : State :=
  (params.zip call_args).foldl
    (fun s pv => { s with symbols := mapInsert s.symbols pv.1 pv.2 })
    State.default

/-- Whether a statement is a `Return`, as tested by `State::run`. -/
def isReturnStmt (statement : Statement) : Bool :=
  match statement.kind with
  | .Return _ => true
  | _ => false

/-- Outcome of executing a statement or statement sequence: success or a
propagated `Error`, in both cases with the final (possibly partially
mutated) state and world; `timeout` marks fuel exhaustion and corresponds
to no program behaviour. -/
inductive ExecResult where
  | ok (st : State) (w : World)
  | err (e : Error) (st : State) (w : World)
  | timeout

/-- The `try_nop_error!` macro of `src/state/mod.rs`: wrap a helper's
`ErrorKind` with the currently executing statement (helpers lifted this way
do not mutate the state before failing). -/
def liftNop (r : Except ErrorKind State) (statement : Statement) (st : State)
    (w : World) : ExecResult :=
  match r with
  | .ok st' => .ok st' w
  | .error kind => .err ⟨kind, statement⟩ st w

/-- As `liftNop`, for helpers that also touch the output world. -/
def liftNopW (r : Except ErrorKind (State × World)) (statement : Statement)
    (st : State) (w : World) : ExecResult :=
  match r with
  | .ok (st', w') => .ok st' w'
  | .error kind => .err ⟨kind, statement⟩ st w

mutual

/-- `State::execute`: dispatch one statement against the state, wrapping
each helper's `ErrorKind` with the currently executing statement.  One unit
of fuel bounds each level of the mutual recursion. -/
def execute (ffi : FFI) (fuel : Nat) (statement : Statement) (st : State)
    (w : World) : ExecResult :=
  match fuel with
  | 0 => .timeout
  | fuel + 1 =>
    match statement.kind with
    | .Input s =>
        match input s st w with
        | (.ok _, st', w') => .ok st' w'
        | (.error kind, st', w') => .err ⟨kind, statement⟩ st' w'
    | .ListAssign s index_exp assign_exp =>
        liftNop (list_assign s index_exp assign_exp st) statement st w
    | .ListAppend s append_exp =>
        liftNop (list_append s append_exp st) statement st w
    | .ListDelete name idx => liftNop (list_delete name idx st) statement st w
    | .ListNew s => .ok { st with symbols := mapInsert st.symbols s (.List []) } w
    | .If cond if_body else_body =>
        exec_if ffi fuel statement cond if_body else_body st w
    | .While cond body => exec_while ffi fuel statement cond body st w
    | .Assignment name value => liftNop (assign name value st) statement st w
    | .Delete name => liftNop (delete name st) statement st w
    | .Print exp => liftNopW (print exp st w) statement st w
    | .PrintNoNl exp => liftNopW (print_no_nl exp st w) statement st w
    | .Catch try_block catch_block => catch_stmt ffi fuel try_block catch_block st w
    | .Function name args body =>
        .ok { st with symbols := mapInsert st.symbols name (.Function args body) } w
    | .Return expr =>
        match evaluate expr st with
        | .error kind => .err ⟨kind, statement⟩ st w
        | .ok val => .ok { st with last_return := some val } w
    | .FunctionCall name args =>
        match call_function ffi fuel name args st w with
        | none => .timeout
        | some (.ok _, w') => .ok st w'
        | some (.error e, w') => .err ⟨e, statement⟩ st w'
    | .DylibLoad lib_path functions =>
        match dylib_load ffi lib_path functions st w with
        | (.ok _, st', w') => .ok st' w'
        | (.error kind, st', w') => .err ⟨kind, statement⟩ st' w'

/-- `State::run`: execute a statement sequence strictly in order; after
each statement, stop early when that statement was a `Return` or the
pending-return slot is set; propagate the first error unchanged. -/
def run (ffi : FFI) (fuel : Nat) (statements : List Statement) (st : State)
    (w : World) : ExecResult :=
  match fuel with
  | 0 => .timeout
  | fuel + 1 =>
    match statements with
    | [] => .ok st w
    | statement :: rest =>
        match execute ffi fuel statement st w with
        | .timeout => .timeout
        | .err e st' w' => .err e st' w'
        | .ok st' w' =>
            if isReturnStmt statement then .ok st' w'
            else if st'.last_return.isSome then .ok st' w'
            else run ffi fuel rest st' w'

/-- `State::exec_if`: evaluate the condition, require a boolean (else
`UnexpectedType` attributed to the `If` statement), and run the selected
body, propagating its outcome. -/
def exec_if (ffi : FFI) (fuel : Nat) (statement : Statement)
    (cond : Expression) (if_body : List Statement)
    (else_body : Option (List Statement)) (st : State) (w : World) :
    ExecResult :=
  match fuel with
  | 0 => .timeout
  | fuel + 1 =>
    match evaluate cond st with
    | .error e => .err ⟨e, statement⟩ st w
    | .ok (.Bool b) =>
        if b then run ffi fuel if_body st w
        else
          match else_body with
          | some s => run ffi fuel s st w
          | none => .ok st w
    | .ok x => .err ⟨.UnexpectedType .Bool x.getType, statement⟩ st w

/-- `State::exec_while`, head: evaluate the condition via `try_bool`
(errors attributed to the `While` statement), then enter the loop. -/
def exec_while (ffi : FFI) (fuel : Nat) (statement : Statement)
    (cond : Expression) (body : List Statement) (st : State) (w : World) :
    ExecResult :=
  match fuel with
  | 0 => .timeout
  | fuel + 1 =>
    match try_bool cond st with
    | .error e => .err ⟨e, statement⟩ st w
    | .ok condition => exec_while_go ffi fuel statement cond body condition st w

/-- `State::exec_while`, loop body: while the condition holds, run the
body; stop with success as soon as the pending-return slot is set after a
body run, otherwise re-evaluate the condition and iterate. -/
def exec_while_go (ffi : FFI) (fuel : Nat) (statement : Statement)
    (cond : Expression) (body : List Statement) (condition : Bool)
    (st : State) (w : World) : ExecResult :=
  match fuel with
  | 0 => .timeout
  | fuel + 1 =>
    if condition then
      match run ffi fuel body st w with
      | .timeout => .timeout
      | .err e st' w' => .err e st' w'
      | .ok st' w' =>
          if st'.last_return.isSome then .ok st' w'
          else
            match try_bool cond st' with
            | .error e => .err ⟨e, statement⟩ st' w'
            | .ok condition' =>
                exec_while_go ffi fuel statement cond body condition' st' w'
    else .ok st w

/-- `State::catch`: run the try block; on success the catch block is
skipped; on any error, discard it entirely and run the catch block from
the state the try block left behind. -/
def catch_stmt (ffi : FFI) (fuel : Nat) (try_block : List Statement)
    (catch_block : List Statement) (st : State) (w : World) : ExecResult :=
  match fuel with
  | 0 => .timeout
  | fuel + 1 =>
    match run ffi fuel try_block st w with
    | .ok st' w' => .ok st' w'
    | .err _ st' w' => run ffi fuel catch_block st' w'
    | .timeout => .timeout

/-- `State::call_function`: evaluate every argument in the caller's state,
look up the callee; a native function is invoked through the FFI record; an
interpreter function requires exact arity (else
`InvalidArguments(name, given, expected)`), then the body runs against a
fresh child state binding the parameters; an error from the body surfaces
as its bare `ErrorKind`; afterwards the child's pending-return slot is the
result, or `NoReturn(name)` when unset.  The caller's state is never
touched (`&self` in the source), so no state is returned. -/
def call_function (ffi : FFI) (fuel : Nat) (name : String)
    (args : List Expression) (st : State) (w : World) :
    Option (Except ErrorKind Value × World) :=
  match fuel with
  | 0 => none
  | fuel + 1 =>
    match evalArgs args st with
    | .error e => some (.error e, w)
    | .ok call_args =>
        match st.get name with
        | .error e => some (.error e, w)
        | .ok (.NativeFunction funk) => some (ffi.nativeCall funk call_args, w)
        | .ok (.Function params body) =>
            if args.length ≠ params.length then
              some (.error (.InvalidArguments name args.length params.length), w)
            else
              match run ffi fuel body (bindParams params call_args) w with
              | .timeout => none
              | .err e _ w' => some (.error e.kind, w')
              | .ok child' w' =>
                  match child'.last_return with
                  | some val => some (.ok val, w')
                  | none => some (.error (.NoReturn name), w')
        | .ok val => some (.error (.UnexpectedType .Function val.getType), w)

end

/-! ## Concrete fixtures used by witnesses and counterexamples -/

/-- An inert foreign-function boundary: every native call and library load
fails. -/
def ffi0 : FFI := ⟨fun _ _ => .error .IOError, fun _ => none⟩

/-- An empty world: no pending input, no output yet. -/
def w0 : World := ⟨[], []⟩

/-- A `Delete` of an unbound name — a statement that always fails with
`UnknownVariable "zzz"`. -/
def deleteStmt : Statement := .mk 3 (.Delete "zzz")

/-- A call of the function `f` (no arguments), at a source location
distinct from `deleteStmt`'s. -/
def callStmt : Statement := .mk 7 (.FunctionCall "f" [])

/-- A state binding `f` to a zero-parameter interpreter function whose body
is just `deleteStmt`. -/
def stF : State := ⟨[("f", .Function [] [deleteStmt])], none, []⟩

/-! ## Helper lemmas -/

/-- Executing a statement with zero fuel always times out. -/
theorem execute_zero (ffi : FFI) (s : Statement) (st : State) (w : World) :
    execute ffi 0 s st w = .timeout := rfl

/-- A successfully executed `Return` statement always leaves the
pending-return slot set (it stores the evaluated value there). -/
theorem return_ok_sets_slot (ffi : FFI) (fuel : Nat) (s : Statement)
    (st : State) (w : World) (st' : State) (w' : World)
    (hret : isReturnStmt s = true)
    (h : execute ffi fuel s st w = .ok st' w') :
    st'.last_return.isSome = true := by
  cases fuel with
  | zero => simp [execute] at h
  | succ fuel =>
    obtain ⟨src, kind⟩ := s
    cases kind <;> simp [isReturnStmt, Statement.kind] at hret
    case Return expr =>
      simp only [execute, Statement.kind] at h
      cases hev : evaluate expr st <;> rw [hev] at h <;> dsimp only at h
      · simp at h
      · injection h with h1 h2
        subst h1
        rfl

/-- Sequential composition for `run`: a prefix that runs to completion
without setting the pending-return slot is transparent to whatever
follows (each list element costs one unit of fuel). -/
theorem run_append (ffi : FFI) :
    ∀ (pre : List Statement) (fuel : Nat) (rest : List Statement)
      (st : State) (w : World) (stm : State) (wm : World),
      run ffi fuel pre st w = .ok stm wm →
      stm.last_return = none →
      run ffi fuel (pre ++ rest) st w = run ffi (fuel - pre.length) rest stm wm
  | [], fuel, rest, st, w, stm, wm, h, _ => by
      cases fuel with
      | zero => simp [run] at h
      | succ fuel =>
        simp only [run] at h
        injection h with h1 h2
        subst h1; subst h2
        simp
  | s :: pre, fuel, rest, st, w, stm, wm, h, hnone => by
      cases fuel with
      | zero => simp [run] at h
      | succ fuel =>
        simp only [run, List.cons_append] at h ⊢
        rw [show (s :: pre).length = pre.length + 1 from rfl]
        cases hx : execute ffi fuel s st w <;> rw [hx] at h <;> dsimp only at h
        case timeout => simp at h
        case err => simp at h
        case ok st1 w1 =>
          dsimp only
          by_cases hr : isReturnStmt s = true
          · rw [if_pos hr] at h
            injection h with h1 h2
            subst h1
            have := return_ok_sets_slot ffi fuel s st w st1 w1 hr hx
            rw [hnone] at this
            simp at this
          · rw [if_neg hr] at h ⊢
            by_cases hs : st1.last_return.isSome = true
            · rw [if_pos hs] at h
              injection h with h1 h2
              subst h1
              rw [hnone] at hs
              simp at hs
            · rw [if_neg hs] at h ⊢
              rw [run_append ffi pre fuel rest st1 w1 stm wm h hnone]
              have harith : fuel + 1 - (pre.length + 1) = fuel - pre.length := by omega
              rw [harith]

/-- A `Return 1` statement. -/
def retStmt : Statement := .mk 4 (.Return (.Value (.Int 1)))

/-- An assignment `y = 2`. -/
def asgnY : Statement := .mk 5 (.Assignment "y" (.Value (.Int 2)))

/-- An assignment `x = 5`. -/
def asgnX : Statement := .mk 6 (.Assignment "x" (.Value (.Int 5)))

/-- The state after `x = 5` from an empty state. -/
def stX : State := ⟨[("x", .Int 5)], none, []⟩

/-! ## Claim theorems -/

/-- C2 (amended): the runner executes a sequence strictly in order; after
a statement that succeeded, it stops immediately — executing no remaining
statement — when that statement was a `Return` or left the pending-return
slot set; otherwise it continues with the rest from the updated state; a
statement that fails also stops the runner, propagating the error; and a
prefix that runs to completion without a pending return is transparent to
the remainder of the sequence (so when no stop condition and no error ever
occurs, every statement is executed). -/
theorem run_sequencing :
    (∀ ffi fuel s rest st w st' w',
        execute ffi fuel s st w = .ok st' w' →
        (isReturnStmt s = true ∨ st'.last_return.isSome = true) →
        run ffi (fuel + 1) (s :: rest) st w = .ok st' w')
  ∧ (∀ ffi fuel s rest st w st' w',
        execute ffi fuel s st w = .ok st' w' →
        isReturnStmt s = false →
        st'.last_return = none →
        run ffi (fuel + 1) (s :: rest) st w = run ffi fuel rest st' w')
  ∧ (∀ ffi fuel s rest st w e st' w',
        execute ffi fuel s st w = .err e st' w' →
        run ffi (fuel + 1) (s :: rest) st w = .err e st' w')
  ∧ (∀ ffi fuel pre rest st w stm wm,
        run ffi fuel pre st w = .ok stm wm →
        stm.last_return = none →
        run ffi fuel (pre ++ rest) st w =
          run ffi (fuel - pre.length) rest stm wm) := by
  refine ⟨?_, ?_, ?_, ?_⟩
  · intro ffi fuel s rest st w st' w' h hstop
    simp only [run]
    rw [h]
    dsimp only
    rcases hstop with hr | hs
    · rw [if_pos hr]
    · by_cases hr : isReturnStmt s = true
      · rw [if_pos hr]
      · rw [if_neg hr, if_pos hs]
  · intro ffi fuel s rest st w st' w' h hret hnone
    simp only [run]
    rw [h]
    dsimp only
    rw [if_neg (by simp [hret]), if_neg (by simp [hnone])]
  · intro ffi fuel s rest st w e st' w' h
    simp only [run]
    rw [h]
  · intro ffi fuel pre rest st w stm wm h hnone
    exact run_append ffi pre fuel rest st w stm wm h hnone

/-- C2 witness: a `Return` statement stops the runner before the next
statement (which would otherwise fail), and the sequence result is the
`Return`'s own result. -/
theorem run_sequencing_witness :
    execute ffi0 1 retStmt State.default w0 = .ok ⟨[], some (.Int 1), []⟩ w0
  ∧ run ffi0 2 [retStmt, deleteStmt] State.default w0 =
      .ok ⟨[], some (.Int 1), []⟩ w0 :=
  ⟨rfl,
   run_sequencing.1 ffi0 1 retStmt [deleteStmt] State.default w0
     ⟨[], some (.Int 1), []⟩ w0 rfl (Or.inl rfl)⟩

/-- C5: `Catch` semantics — a try block that succeeds skips the catch
block entirely (the result does not depend on the catch block), and a try
block that fails with any error has that error discarded: the `Catch`'s
outcome is exactly the catch block's run from the state the try block left
behind, so the original error can never surface from the `Catch`. -/
theorem catch_discards_errors :
    (∀ ffi fuel try_block catch_block st w st' w',
        run ffi fuel try_block st w = .ok st' w' →
        catch_stmt ffi (fuel + 1) try_block catch_block st w = .ok st' w')
  ∧ (∀ ffi fuel try_block catch_block st w e st' w',
        run ffi fuel try_block st w = .err e st' w' →
        catch_stmt ffi (fuel + 1) try_block catch_block st w =
          run ffi fuel catch_block st' w') := by
  constructor
  · intro ffi fuel tb cb st w st' w' h
    simp only [catch_stmt]
    rw [h]
  · intro ffi fuel tb cb st w e st' w' h
    simp only [catch_stmt]
    rw [h]

/-- C5 witness: a failing try block (deleting an unbound name) leads to
the catch block's run, with the original error discarded. -/
theorem catch_discards_errors_witness :
    run ffi0 2 [deleteStmt] State.default w0 =
      .err ⟨.UnknownVariable "zzz", deleteStmt⟩ State.default w0
  ∧ catch_stmt ffi0 3 [deleteStmt] [asgnY] State.default w0 =
      run ffi0 2 [asgnY] State.default w0 :=
  ⟨rfl,
   catch_discards_errors.2 ffi0 2 [deleteStmt] [asgnY] State.default w0
     ⟨.UnknownVariable "zzz", deleteStmt⟩ State.default w0 rfl⟩

/-- C6: a `While` whose condition evaluates to false on first evaluation
executes its body zero times and leaves state (hence the pending-return
slot) and world untouched; and after a body run that set the
pending-return slot, the loop stops immediately with that state, without
re-evaluating the condition (the outcome is independent of `cond`). -/
theorem while_zero_iterations_and_return_stop :
    (∀ ffi fuel statement cond body st w,
        try_bool cond st = .ok false →
        exec_while ffi (fuel + 2) statement cond body st w = .ok st w)
  ∧ (∀ ffi fuel statement cond body st w st' w',
        run ffi fuel body st w = .ok st' w' →
        st'.last_return.isSome = true →
        exec_while_go ffi (fuel + 1) statement cond body true st w =
          .ok st' w') := by
  constructor
  · intro ffi fuel stmt cond body st w h
    simp only [exec_while]
    rw [h]
    dsimp only
    simp [exec_while_go]
  · intro ffi fuel stmt cond body st w st' w' h hsome
    simp only [exec_while_go, if_pos]
    rw [h]
    dsimp only
    rw [if_pos hsome]

/-- C6 witness: a loop with literal condition `false` runs zero times; a
loop body that returned stops the loop at once. -/
theorem while_zero_iterations_and_return_stop_witness :
    try_bool (.Value (.Bool false)) stX = .ok false
  ∧ exec_while ffi0 2 retStmt (.Value (.Bool false)) [deleteStmt] stX w0 =
      .ok stX w0
  ∧ run ffi0 2 [retStmt] State.default w0 = .ok ⟨[], some (.Int 1), []⟩ w0
  ∧ exec_while_go ffi0 3 retStmt (.Value (.Bool false)) [retStmt] true
      State.default w0 = .ok ⟨[], some (.Int 1), []⟩ w0 :=
  ⟨rfl,
   while_zero_iterations_and_return_stop.1 ffi0 0 retStmt (.Value (.Bool false))
     [deleteStmt] stX w0 rfl,
   rfl,
   while_zero_iterations_and_return_stop.2 ffi0 2 retStmt (.Value (.Bool false))
     [retStmt] State.default w0 ⟨[], some (.Int 1), []⟩ w0 rfl rfl⟩

/-- C9: executing a standalone `FunctionCall` statement never mutates the
caller's state — symbol table, pending-return slot and loaded-library
collection are returned exactly as they were, whether the call succeeds or
fails (the call result is discarded; only the I/O world can change). -/
theorem functioncall_preserves_caller :
    (∀ ffi fuel src name args st w st' w',
        execute ffi fuel (.mk src (.FunctionCall name args)) st w = .ok st' w' →
        st' = st)
  ∧ (∀ ffi fuel src name args st w e st' w',
        execute ffi fuel (.mk src (.FunctionCall name args)) st w = .err e st' w' →
        st' = st) := by
  constructor
  · intro ffi fuel src name args st w st' w' h
    cases fuel with
    | zero => simp [execute] at h
    | succ fuel =>
      simp only [execute, Statement.kind] at h
      cases hc : call_function ffi fuel name args st w <;> rw [hc] at h
      · simp at h
      · rename_i res
        obtain ⟨r, w2⟩ := res
        cases r <;> simp at h
        exact h.1.symm
  · intro ffi fuel src name args st w e st' w' h
    cases fuel with
    | zero => simp [execute] at h
    | succ fuel =>
      simp only [execute, Statement.kind] at h
      cases hc : call_function ffi fuel name args st w <;> rw [hc] at h
      · simp at h
      · rename_i res
        obtain ⟨r, w2⟩ := res
        cases r <;> simp at h
        exact h.2.1.symm

/-- A call of the function `g` (no arguments). -/
def callGStmt : Statement := .mk 8 (.FunctionCall "g" [])

/-- A state binding `g` to a function whose body assigns and returns —
mutations that must stay inside the child scope. -/
def stG : State := ⟨[("g", .Function [] [asgnY, retStmt])], none, []⟩

/-- C9 witness: calling `g` (whose body assigns `y` and returns `1`)
succeeds and hands back the caller's state identically — the callee's
assignment and `Return` never reach the caller. -/
theorem functioncall_preserves_caller_witness :
    execute ffi0 5 callGStmt stG w0 = .ok stG w0 ∧ stG = stG :=
  ⟨rfl,
   functioncall_preserves_caller.1 ffi0 5 8 "g" [] stG w0 stG w0 rfl⟩

/-- C10: `Catch` is not atomic — when the try block fails at some
statement, the mutations of the previously executed statements persist
(`stm` is the state the successful prefix produced, `st2` the state at the
failure), and the catch block runs against that partially mutated state,
with nothing rolled back. -/
theorem catch_runs_from_partial_state :
    ∀ ffi fuel pre sfail catch_block st w stm wm e st2 w2,
      run ffi fuel pre st w = .ok stm wm →
      stm.last_return = none →
      execute ffi (fuel - pre.length - 1) sfail stm wm = .err e st2 w2 →
      catch_stmt ffi (fuel + 1) (pre ++ [sfail]) catch_block st w =
        run ffi fuel catch_block st2 w2 := by
  intro ffi fuel pre sfail cb st w stm wm e st2 w2 hpre hnone hfail
  have hrunall := run_append ffi pre fuel [sfail] st w stm wm hpre hnone
  have hg : ∃ g, fuel - pre.length = g + 1 := by
    rcases Nat.eq_zero_or_pos (fuel - pre.length) with h0 | hpos
    · exfalso
      have hz : fuel - pre.length - 1 = 0 := by omega
      rw [hz, execute_zero] at hfail
      exact ExecResult.noConfusion hfail
    · exact ⟨fuel - pre.length - 1, by omega⟩
  obtain ⟨g, hgeq⟩ := hg
  have hgg : fuel - pre.length - 1 = g := by omega
  rw [hgeq] at hrunall
  rw [hgg] at hfail
  simp only [catch_stmt]
  rw [hrunall]
  simp only [run]
  rw [hfail]

/-- C10 witness: `x = 5` succeeds inside the try block, then deleting an
unbound name fails; the catch block runs with `x = 5` still bound. -/
theorem catch_runs_from_partial_state_witness :
    run ffi0 3 [asgnX] State.default w0 = .ok stX w0
  ∧ execute ffi0 1 deleteStmt stX w0 =
      .err ⟨.UnknownVariable "zzz", deleteStmt⟩ stX w0
  ∧ catch_stmt ffi0 4 ([asgnX] ++ [deleteStmt]) [asgnY] State.default w0 =
      run ffi0 3 [asgnY] stX w0 :=
  ⟨rfl, rfl,
   catch_runs_from_partial_state ffi0 3 [asgnX] deleteStmt [asgnY]
     State.default w0 stX w0 ⟨.UnknownVariable "zzz", deleteStmt⟩ stX w0
     rfl rfl rfl⟩

/-- C2 counterexample: with no `Return` and no pending return ever set, a
failing statement still aborts the sequence — `y = 2` is never executed
(the final state carries no `y`), refuting "if neither ever occurs, every
statement of the sequence is executed". -/
theorem run_error_aborts_counterexample :
    run ffi0 2 [deleteStmt, asgnY] State.default w0 =
      .err ⟨.UnknownVariable "zzz", deleteStmt⟩ State.default w0
  ∧ isReturnStmt deleteStmt = false
  ∧ State.default.last_return.isSome = false
  ∧ mapGet State.default.symbols "y" = none :=
  ⟨rfl, rfl, rfl, rfl⟩

/-- C1 (amended): an `Error` built by the executor propagates unchanged up
the run stack and through `If`/`While` bodies — except across an
interpreter-function call boundary: `call_function` surfaces only the
`ErrorKind` of an error raised inside the callee's body, and the
`FunctionCall` statement's executor re-wraps that kind with the call
statement itself, replacing the originating statement. -/
theorem error_propagation :
    (∀ ffi fuel s rest st w e st' w',
        execute ffi fuel s st w = .err e st' w' →
        run ffi (fuel + 1) (s :: rest) st w = .err e st' w')
  ∧ (∀ ffi fuel stmt cond if_body else_body st w e st' w',
        evaluate cond st = .ok (.Bool true) →
        run ffi fuel if_body st w = .err e st' w' →
        exec_if ffi (fuel + 1) stmt cond if_body else_body st w =
          .err e st' w')
  ∧ (∀ ffi fuel stmt cond body st w e st' w',
        run ffi fuel body st w = .err e st' w' →
        exec_while_go ffi (fuel + 1) stmt cond body true st w =
          .err e st' w')
  ∧ (∀ ffi fuel src name args st w params body vs e st' w',
        evalArgs args st = .ok vs →
        State.get st name = .ok (.Function params body) →
        args.length = params.length →
        run ffi fuel body (bindParams params vs) w = .err e st' w' →
        execute ffi (fuel + 2) (.mk src (.FunctionCall name args)) st w =
          .err ⟨e.kind, .mk src (.FunctionCall name args)⟩ st w') := by
  refine ⟨?_, ?_, ?_, ?_⟩
  · intro ffi fuel s rest st w e st' w' h
    simp only [run]
    rw [h]
  · intro ffi fuel stmt cond if_body else_body st w e st' w' hcond hrun
    simp only [exec_if]
    rw [hcond]
    dsimp only
    exact hrun
  · intro ffi fuel stmt cond body st w e st' w' hrun
    simp [exec_while_go, hrun]
  · intro ffi fuel src name args st w params body vs e st' w' hargs hget hlen hrun
    have hcall : call_function ffi (fuel + 1) name args st w =
        some (.error e.kind, w') := by
      simp only [call_function]
      rw [hargs]
      dsimp only
      rw [hget]
      dsimp only
      rw [if_neg (by simp [hlen])]
      rw [hrun]
    simp only [execute, Statement.kind]
    rw [hcall]

/-- C1 witness: a failing `Delete` statement's error propagates unchanged
to the head of a run sequence. -/
theorem error_propagation_witness :
    execute ffi0 1 deleteStmt State.default w0 =
      .err ⟨.UnknownVariable "zzz", deleteStmt⟩ State.default w0
  ∧ run ffi0 2 [deleteStmt, asgnY] State.default w0 =
      .err ⟨.UnknownVariable "zzz", deleteStmt⟩ State.default w0 :=
  ⟨rfl,
   error_propagation.1 ffi0 1 deleteStmt [asgnY] State.default w0
     ⟨.UnknownVariable "zzz", deleteStmt⟩ State.default w0 rfl⟩

/-- C1 counterexample: the error raised at the `Delete` statement inside
`f`'s body surfaces from the `FunctionCall` statement paired with the
*call* statement, not with the `Delete` statement that was executing when
the failure occurred — the kind/place pairing is not preserved across the
call boundary. -/
theorem call_reattributes_error_counterexample :
    execute ffi0 1 deleteStmt State.default w0 =
      .err ⟨.UnknownVariable "zzz", deleteStmt⟩ State.default w0
  ∧ execute ffi0 4 callStmt stF w0 =
      .err ⟨.UnknownVariable "zzz", callStmt⟩ stF w0
  ∧ callStmt.srcId ≠ deleteStmt.srcId :=
  ⟨rfl, rfl, by decide⟩

/-- C3 (amended): when every argument expression evaluates successfully in
the caller's state, a call of a name bound to an interpreter function with
a differing argument count always fails
`InvalidArguments(name, given, expected)` with the call-site argument count
and the parameter count; the world is returned untouched, so no child
scope effect and no body statement has run.  (Arguments are, however,
evaluated before the arity check, so an argument whose evaluation fails
surfaces that error instead.) -/
theorem arity_checked_before_body :
    (∀ ffi fuel name args st w params body vs,
        evalArgs args st = .ok vs →
        State.get st name = .ok (.Function params body) →
        args.length ≠ params.length →
        call_function ffi (fuel + 1) name args st w =
          some (.error (.InvalidArguments name args.length params.length), w))
  ∧ (∀ ffi fuel src name args st w params body vs,
        evalArgs args st = .ok vs →
        State.get st name = .ok (.Function params body) →
        args.length ≠ params.length →
        execute ffi (fuel + 2) (.mk src (.FunctionCall name args)) st w =
          .err ⟨.InvalidArguments name args.length params.length,
                .mk src (.FunctionCall name args)⟩ st w) := by
  have hcf : ∀ (ffi : FFI) (fuel : Nat) name args (st : State) (w : World)
      params body vs,
      evalArgs args st = .ok vs →
      State.get st name = .ok (.Function params body) →
      args.length ≠ params.length →
      call_function ffi (fuel + 1) name args st w =
        some (.error (.InvalidArguments name args.length params.length), w) := by
    intro ffi fuel name args st w params body vs hargs hget hlen
    simp only [call_function]
    rw [hargs]
    dsimp only
    rw [hget]
    dsimp only
    rw [if_pos hlen]
  constructor
  · exact hcf
  · intro ffi fuel src name args st w params body vs hargs hget hlen
    simp only [execute, Statement.kind]
    rw [hcf ffi fuel name args st w params body vs hargs hget hlen]

/-- A state binding `f2` to a two-parameter interpreter function with an
empty body. -/
def st3 : State := ⟨[("f2", .Function ["a", "b"] [])], none, []⟩

/-- A call of `f2` with a single argument that fails to evaluate. -/
def badArityCall : Statement := .mk 11 (.FunctionCall "f2" [.Variable "zzz"])

/-- A call of `f2` with a single evaluable argument. -/
def wrongArityCall : Statement := .mk 12 (.FunctionCall "f2" [.Value (.Int 9)])

/-- C3 counterexample: calling the two-parameter `f2` with one argument
whose evaluation fails yields `UnknownVariable`, not the
`InvalidArguments(f2, 1, 2)` the claim promises for every mismatched-arity
call — arguments are evaluated before the arity check. -/
theorem arity_counterexample :
    execute ffi0 2 badArityCall st3 w0 =
      .err ⟨.UnknownVariable "zzz", badArityCall⟩ st3 w0
  ∧ [Expression.Variable "zzz"].length ≠ ["a", "b"].length
  ∧ ErrorKind.UnknownVariable "zzz" ≠ ErrorKind.InvalidArguments "f2" 1 2 :=
  ⟨rfl, by decide, fun h => ErrorKind.noConfusion h⟩

/-- C3 witness: the same mismatched-arity call with an evaluable argument
does fail `InvalidArguments(f2, 1, 2)`, before any body effect. -/
theorem arity_checked_before_body_witness :
    evalArgs [.Value (.Int 9)] st3 = .ok [.Int 9]
  ∧ st3.get "f2" = .ok (.Function ["a", "b"] [])
  ∧ execute ffi0 2 wrongArityCall st3 w0 =
      .err ⟨.InvalidArguments "f2" 1 2, wrongArityCall⟩ st3 w0 :=
  ⟨rfl, rfl,
   arity_checked_before_body.2 ffi0 0 12 "f2" [.Value (.Int 9)] st3 w0
     ["a", "b"] [] [.Int 9] rfl rfl (by decide)⟩

/-- C4: a successful interpreter-function invocation (name bound to a
function, arguments evaluated, matching arity, body run without error
against the child scope binding the parameters) yields `NoReturn(name)`
when the child's pending-return slot ended unset, and otherwise returns
exactly the value stored in that slot. -/
theorem call_returns_pending_slot :
    (∀ ffi fuel name args st w params body vs st' w',
        State.get st name = .ok (.Function params body) →
        evalArgs args st = .ok vs →
        args.length = params.length →
        run ffi fuel body (bindParams params vs) w = .ok st' w' →
        st'.last_return = none →
        call_function ffi (fuel + 1) name args st w =
          some (.error (.NoReturn name), w'))
  ∧ (∀ ffi fuel name args st w params body vs st' w' val,
        State.get st name = .ok (.Function params body) →
        evalArgs args st = .ok vs →
        args.length = params.length →
        run ffi fuel body (bindParams params vs) w = .ok st' w' →
        st'.last_return = some val →
        call_function ffi (fuel + 1) name args st w =
          some (.ok val, w')) := by
  constructor
  · intro ffi fuel name args st w params body vs st' w' hget hargs hlen hrun hslot
    simp only [call_function]
    rw [hargs]
    dsimp only
    rw [hget]
    dsimp only
    rw [if_neg (by simp [hlen])]
    rw [hrun]
    dsimp only
    rw [hslot]
  · intro ffi fuel name args st w params body vs st' w' val hget hargs hlen hrun hslot
    simp only [call_function]
    rw [hargs]
    dsimp only
    rw [hget]
    dsimp only
    rw [if_neg (by simp [hlen])]
    rw [hrun]
    dsimp only
    rw [hslot]

/-- A state binding `h0` to a function with an empty body (which can never
set the pending-return slot). -/
def stH : State := ⟨[("h0", .Function [] [])], none, []⟩

/-- C4 witness: `g`'s body (`y = 2; return 1`) ends with the slot holding
`1`, so the call returns `1`; `h0`'s empty body leaves the slot unset, so
the call fails `NoReturn(h0)`. -/
theorem call_returns_pending_slot_witness :
    run ffi0 3 [asgnY, retStmt] (bindParams [] []) w0 =
      .ok ⟨[("y", .Int 2)], some (.Int 1), []⟩ w0
  ∧ call_function ffi0 4 "g" [] stG w0 = some (.ok (.Int 1), w0)
  ∧ run ffi0 1 [] (bindParams [] []) w0 = .ok State.default w0
  ∧ call_function ffi0 2 "h0" [] stH w0 =
      some (.error (.NoReturn "h0"), w0) :=
  ⟨rfl,
   call_returns_pending_slot.2 ffi0 3 "g" [] stG w0 [] [asgnY, retStmt] []
     ⟨[("y", .Int 2)], some (.Int 1), []⟩ w0 (.Int 1) rfl rfl rfl rfl rfl,
   rfl,
   call_returns_pending_slot.1 ffi0 1 "h0" [] stH w0 [] [] []
     State.default w0 rfl rfl rfl rfl rfl⟩

/-- C7 (amended): for a binding of `name` to a list or string and an index
expression evaluating to an integer `i` with `0 ≤ i < 2^64` (so the
`as usize` cast is the identity; a negative `i` wraps to a huge unsigned
index instead): an index ≥ the container's length always fails
`IndexOutOfBounds` with exactly the (length, index) pair, and an index <
the length always succeeds — for a string the length is counted in Unicode
scalar characters and the result is a fresh single-character string.  The
same bounds behaviour holds for `get_list_element` on lists. -/
theorem index_bounds_semantics :
    (∀ st name e l i,
        mapGet st.symbols name = some (.List l) →
        evaluate e st = .ok (.Int i) →
        0 ≤ i → i < 2 ^ 64 →
        ((l.length ≤ i.toNat →
            list_index st name e = .error (.IndexOutOfBounds l.length i.toNat))
         ∧ ∀ h : i.toNat < l.length,
             list_index st name e = .ok (l.get ⟨i.toNat, h⟩)))
  ∧ (∀ st name e s i,
        mapGet st.symbols name = some (.Str s) →
        evaluate e st = .ok (.Int i) →
        0 ≤ i → i < 2 ^ 64 →
        ((s.toList.length ≤ i.toNat →
            list_index st name e =
              .error (.IndexOutOfBounds s.toList.length i.toNat))
         ∧ ∀ h : i.toNat < s.toList.length,
             list_index st name e =
               .ok (.Str (s.toList.get ⟨i.toNat, h⟩).toString)))
  ∧ (∀ st name e l i,
        mapGet st.symbols name = some (.List l) →
        evaluate e st = .ok (.Int i) →
        0 ≤ i → i < 2 ^ 64 →
        ((l.length ≤ i.toNat →
            get_list_element name e st =
              .error (.IndexOutOfBounds l.length i.toNat))
         ∧ ∀ h : i.toNat < l.length,
             get_list_element name e st = .ok (l.get ⟨i.toNat, h⟩))) := by
  refine ⟨?_, ?_, ?_⟩
  · intro st name e l i hmap hev h0 hlt
    have hcast : intToUsize i = i.toNat := by
      simp only [intToUsize]
      rw [Int.emod_eq_of_lt h0 hlt]
    constructor
    · intro hge
      simp only [list_index]
      rw [hev]
      dsimp only
      simp only [index_lookup]
      rw [hmap]
      dsimp only
      rw [hcast, dif_neg (by omega)]
    · intro h
      simp only [list_index]
      rw [hev]
      dsimp only
      simp only [index_lookup]
      rw [hmap]
      dsimp only
      rw [hcast, dif_pos h]
  · intro st name e s i hmap hev h0 hlt
    have hcast : intToUsize i = i.toNat := by
      simp only [intToUsize]
      rw [Int.emod_eq_of_lt h0 hlt]
    constructor
    · intro hge
      simp only [list_index]
      rw [hev]
      dsimp only
      simp only [index_lookup]
      rw [hmap]
      dsimp only
      rw [hcast, dif_neg (by omega)]
    · intro h
      simp only [list_index]
      rw [hev]
      dsimp only
      simp only [index_lookup]
      rw [hmap]
      dsimp only
      rw [hcast, dif_pos h]
  · intro st name e l i hmap hev h0 hlt
    have hcast : intToUsize i = i.toNat := by
      simp only [intToUsize]
      rw [Int.emod_eq_of_lt h0 hlt]
    constructor
    · intro hge
      simp only [get_list_element, try_int]
      rw [hev]
      dsimp only
      rw [hmap]
      dsimp only
      rw [hcast, dif_neg (by omega)]
    · intro h
      simp only [get_list_element, try_int]
      rw [hev]
      dsimp only
      rw [hmap]
      dsimp only
      rw [hcast, dif_pos h]

/-- A state binding `l` to the one-element list `[7]`. -/
def stL : State := ⟨[("l", .List [.Int 7])], none, []⟩

/-- A state binding `s` to the two-character string `"ab"`. -/
def stS : State := ⟨[("s", .Str "ab")], none, []⟩

/-- C7 counterexample: the index expression evaluates to the integer `-1`,
which is smaller than the length `1`, yet indexing does not succeed — the
`as usize` cast wraps `-1` to `2^64 - 1` and the lookup fails
`IndexOutOfBounds(1, 2^64 - 1)`. -/
theorem negative_index_counterexample :
    (-1 : Int) < 1
  ∧ list_index stL "l" (.Value (.Int (-1))) =
      .error (.IndexOutOfBounds 1 (2 ^ 64 - 1)) :=
  ⟨by decide, rfl⟩

/-- C7 witness: in-bounds and out-of-bounds indexing of the list `[7]` and
the string `"ab"`, and of `get_list_element` on the list. -/
theorem index_bounds_semantics_witness :
    list_index stL "l" (.Value (.Int 0)) = .ok (.Int 7)
  ∧ list_index stL "l" (.Value (.Int 5)) = .error (.IndexOutOfBounds 1 5)
  ∧ list_index stS "s" (.Value (.Int 1)) = .ok (.Str "b")
  ∧ list_index stS "s" (.Value (.Int 2)) = .error (.IndexOutOfBounds 2 2)
  ∧ get_list_element "l" (.Value (.Int 0)) stL = .ok (.Int 7) :=
  ⟨(index_bounds_semantics.1 stL "l" (.Value (.Int 0)) [.Int 7] 0 rfl rfl
      (by decide) (by decide)).2 (by decide),
   (index_bounds_semantics.1 stL "l" (.Value (.Int 5)) [.Int 7] 5 rfl rfl
      (by decide) (by decide)).1 (by decide),
   (index_bounds_semantics.2.1 stS "s" (.Value (.Int 1)) "ab" 1 rfl rfl
      (by decide) (by decide)).2 (by decide),
   (index_bounds_semantics.2.1 stS "s" (.Value (.Int 2)) "ab" 2 rfl rfl
      (by decide) (by decide)).1 (by decide),
   (index_bounds_semantics.2.2 stL "l" (.Value (.Int 0)) [.Int 7] 0 rfl rfl
      (by decide) (by decide)).2 (by decide)⟩

/-- C8 (amended): an `Input` statement that reads a line successfully
binds `name` to the line with *leading and trailing* whitespace trimmed
(Rust's `str::trim` strips both ends, not only the trailing end); a
failing read surfaces `IOError` attributed to the `Input` statement and
leaves the state — in particular every binding — unchanged. -/
theorem input_semantics :
    (∀ ffi fuel src name st w line rest,
        w.stdin = some line :: rest →
        execute ffi (fuel + 1) (.mk src (.Input name)) st w =
          .ok { st with symbols := mapInsert st.symbols name (.Str (rustTrim line)) }
             { w with stdin := rest })
  ∧ (∀ ffi fuel src name st w rest,
        w.stdin = none :: rest →
        execute ffi (fuel + 1) (.mk src (.Input name)) st w =
          .err ⟨.IOError, .mk src (.Input name)⟩ st { w with stdin := rest }) := by
  constructor
  · intro ffi fuel src name st w line rest hin
    simp only [execute, Statement.kind, input]
    rw [hin]
  · intro ffi fuel src name st w rest hin
    simp only [execute, Statement.kind, input]
    rw [hin]

/-- The `Input` statement binding the read line to `x`. -/
def inputStmt : Statement := .mk 21 (.Input "x")

/-- A world whose next stdin line is `" a "`. -/
def wIn : World := ⟨[some " a "], []⟩

/-- A world whose next stdin read fails, with a further line behind it. -/
def wErr : World := ⟨[none, some "q"], []⟩

/-- C8 counterexample: reading the line `" a "` binds `x` to `"a"` — the
leading space is removed as well, not only trailing whitespace, so the
bound value differs from the claim's `" a"`. -/
theorem input_trim_counterexample :
    execute ffi0 1 inputStmt State.default wIn =
      .ok ⟨[("x", .Str "a")], none, []⟩ ⟨[], []⟩
  ∧ ("a" : String) ≠ " a" :=
  ⟨rfl, by decide⟩

/-- C8 witness: a successful read of `" a "` binds the trimmed string and
consumes the line; a failing read surfaces `IOError`, consumes its event,
and leaves the state unchanged. -/
theorem input_semantics_witness :
    execute ffi0 1 inputStmt State.default wIn =
      .ok { State.default with
            symbols := mapInsert State.default.symbols "x" (.Str (rustTrim " a ")) }
         { wIn with stdin := [] }
  ∧ execute ffi0 1 inputStmt State.default wErr =
      .err ⟨.IOError, inputStmt⟩ State.default { wErr with stdin := [some "q"] } :=
  ⟨input_semantics.1 ffi0 0 21 "x" State.default wIn " a " [] rfl,
   input_semantics.2 ffi0 0 21 "x" State.default wErr [some "q"] rfl⟩
